import Mathlib

/-!
Verification of the daily-action scheduling and progress-accounting engine of
the DreamLine backend (`backend/server.py`).

Modelling conventions (shallow embedding):
* Calendar dates (`datetime.date`) are integers counting days since
  1970-01-01 (a Thursday), so `timedelta(days=1)` is `+ 1` and Python's
  `date.weekday()` (Monday = 0) is `(d + 3) % 7`.
* Timestamps stored in `completed_at` are opaque integers.
* The SQL store of `daily_actions` rows is a `List DailyAction` in insertion
  order; `db.add_all` / commit appends to the list.
* `uuid.uuid4()` calls are modelled by a supply `freshId : Nat → String`
  consumed in call order.
* Row ids produced by the application are non-empty UUID strings, so the
  Python truthiness test `if already_carried_q.scalar_one_or_none():` on a
  returned id column is modelled as row existence (`List.any`).
-/

set_option linter.unusedVariables false

namespace DreamLine

/-- A row of the `daily_actions` table (class `DailyAction` in `server.py`). -/
structure DailyAction where
  id : String
  user_id : String
  plan_id : String
  focus_area : String
  action : String
  day : Int
  completed : Bool
  completed_at : Option Int
  rescheduled_from : Option Int
  deriving DecidableEq, Repr, Inhabited

/-- The `(plan_id, focus_area, action)` key used by the rollover engine's
de-duplication set (`existing_keys` in `reschedule_incomplete_actions`). -/
def actionTriple (a : DailyAction) : String × String × String :=
  (a.plan_id, a.focus_area, a.action)

/-- The filter of the short-circuit / `existing_keys` queries of
`reschedule_incomplete_actions`: rows of this user with `day = today` and
`rescheduled_from = yesterday`. -/
def isCarriedToday (uid : String) (today : Int) (a : DailyAction) : Bool :=
  a.user_id == uid && a.day == today && a.rescheduled_from == some (today - 1)

/-- The filter of the "yesterday incompletes" query of
`reschedule_incomplete_actions`: rows of this user with `day = yesterday`
and `completed = false`. -/
def isYesterdayIncomplete (uid : String) (today : Int) (a : DailyAction) : Bool :=
  a.user_id == uid && a.day == today - 1 && a.completed == false

/-- The `DailyAction(...)` constructor call inside the `to_add` loop of
`reschedule_incomplete_actions`: a copy of row `a` carried to `today`. -/
def carryRow (today : Int) (newId : String) (a : DailyAction) : DailyAction :=
  { id := newId
    user_id := a.user_id
    plan_id := a.plan_id
    focus_area := a.focus_area
    action := a.action
    day := today
    completed := false
    completed_at := none
    rescheduled_from := some (today - 1) }

/-- The `to_add` loop of `reschedule_incomplete_actions`, after the key
filter: one `uuid4` id (`freshId n`, `n` counting issued ids) per carried
copy, in source order. -/
def carryAll (today : Int) (freshId : Nat → String) : Nat → List DailyAction → List DailyAction
  | _, [] => []
  | n, a :: rest => carryRow today (freshId n) a :: carryAll today freshId (n + 1) rest

/-- The rows that `reschedule_incomplete_actions` carries forward: the
`rows` of yesterday's incompletes (`yq` query), minus those whose
`(plan_id, focus_area, action)` key is already among today's carried rows
(`existing_keys`, from the `tq` query). -/
def rolloverSources (uid : String) (today : Int)
    (store : List DailyAction) : List DailyAction :=
  (store.filter (isYesterdayIncomplete uid today)).filter
    (fun a => !(((store.filter (isCarriedToday uid today)).map actionTriple).contains
      (actionTriple a)))

/-- `reschedule_incomplete_actions(db, user_id)` (server.py:604-669) acting on
the store, with `today = effective_day()` passed explicitly:

1. short-circuit if any row of the user already has `day = today` and
   `rescheduled_from = yesterday`;
2. fetch yesterday's incomplete rows (`rows`); return if none;
3. fetch the `(plan_id, focus_area, action)` keys of today's carried rows;
4. insert a carried copy of each incomplete row whose key is not present
   (steps 2-4 are bundled in `rolloverSources`). -/
def reschedule_incomplete_actions (uid : String) (today : Int)
    (freshId : Nat → String) (store : List DailyAction) : List DailyAction :=
  if store.any (isCarriedToday uid today) then store
  else if (store.filter (isYesterdayIncomplete uid today)).isEmpty then store
  else
    let toAdd := carryAll today freshId 0 (rolloverSources uid today store)
    if toAdd.isEmpty then store else store ++ toAdd

/-- The duplicate-row shape excluded by the spec's de-duplication invariant:
two rows of the same user for day `today` agreeing on
`(plan_id, focus_area, action, rescheduled_from)`. -/
def sameQuadToday (today : Int) (b1 b2 : DailyAction) : Bool :=
  b1.user_id == b2.user_id && b1.day == today && b2.day == today &&
    b1.plan_id == b2.plan_id && b1.focus_area == b2.focus_area &&
    b1.action == b2.action && b1.rescheduled_from == b2.rescheduled_from

/-- Whether some pair of rows (at distinct positions) of the store violates
the de-duplication invariant for day `today`. -/
def hasDuplicateQuadForDay (today : Int) : List DailyAction → Bool
  | [] => false
  | b :: rest => rest.any (sameQuadToday today b) || hasDuplicateQuadForDay today rest

/-- Whether two rows (at distinct positions) of the list share their
`(plan_id, focus_area, action)` key. -/
def hasDuplicateTriple : List DailyAction → Bool
  | [] => false
  | a :: rest => rest.any (fun b => actionTriple a == actionTriple b) || hasDuplicateTriple rest

/-! ### Python string primitives used by the generation pipeline

`str.strip()` and `str.splitlines()[0]` as used in
`generate_next_action_with_ai` and `ensure_fresh_actions_for_today`.
`isPySpace` lists the whitespace characters relevant here (Python strips all
Unicode whitespace; every `splitlines` boundary character is also stripped
by `strip`, which is the property the proofs rely on). -/

def isPySpace (c : Char) : Bool :=
  c = ' ' || c = '\t' || c = '\n' || c = '\r' || c = '\x0b' || c = '\x0c' ||
    c = '\x1c' || c = '\x1d' || c = '\x1e' || c = '\x85' || c = '\xa0' ||
    c = '\u2028' || c = '\u2029'

/-- The line boundaries of Python's `str.splitlines` (each is also
whitespace for `str.strip`). -/
def isPyLineBreak (c : Char) : Bool :=
  c = '\n' || c = '\r' || c = '\x0b' || c = '\x0c' || c = '\x1c' || c = '\x1d' ||
    c = '\x1e' || c = '\x85' || c = '\u2028' || c = '\u2029'

def stripLeft (l : List Char) : List Char := l.dropWhile isPySpace

def stripRight : List Char → List Char
  | [] => []
  | c :: cs =>
    match stripRight cs with
    | [] => if isPySpace c then [] else [c]
    | ds => c :: ds

/-- Python `s.strip()`. -/
def pyStrip (s : String) : String := ⟨stripRight (stripLeft s.data)⟩

/-- Python `s.splitlines()[0]` for non-empty `s`: the prefix up to the first
line boundary. -/
def pyFirstLine (s : String) : String := ⟨s.data.takeWhile (fun c => !isPyLineBreak c)⟩

/-- Python `x or default` on an optional string: `None` and `""` are falsy. -/
def pyOr (o : Option String) (d : String) : String :=
  match o with
  | none => d
  | some s => if s = "" then d else s

/-- Python `a or b` on strings: `""` is falsy. -/
def pyOrS (a b : String) : String := if a = "" then b else a

/-! ### Plans, focus areas and the fresh-action engine -/

/-- A focus-area record inside `Plan.focus_areas` (semi-structured JSON in
the source; absent keys are `none`). Fields not read by the scheduling core
(e.g. `outcomes`) feed only the generation prompt. -/
structure FocusArea where
  name : Option String
  description : Option String
  weekly_focus : Option String
  monthly_direction : Option String
  success_looks_like : Option String
  outcomes : List String
  deriving DecidableEq, Repr, Inhabited

/-- A row of the `plans` table (class `Plan` in `server.py`). -/
structure Plan where
  id : String
  user_id : String
  goal_id : String
  focus_areas : List FocusArea
  timeline : String
  status : String
  deriving DecidableEq, Repr, Inhabited

/-- The store state seen by the fresh-action engine: the `plans` and
`daily_actions` tables. -/
structure St where
  plans : List Plan
  actions : List DailyAction
  deriving DecidableEq, Repr, Inhabited

/-- Outcome of one call to the external chat-completion capability:
it raises, or replies with `resp.choices[0].message.content`
(`none` models a `None` content). -/
inductive AIOutcome where
  | raise : AIOutcome
  | reply (content : Option String) : AIOutcome
  deriving DecidableEq, Repr, Inhabited

/-- Outcome of one generation task as seen by `asyncio.gather`: either an
exception escapes the task itself (`escape`, e.g. cancellation — caught by
`return_exceptions=True`), or the task runs the generator call with the
given `AIOutcome`. -/
inductive TaskOutcome where
  | escape : TaskOutcome
  | run (o : AIOutcome) : TaskOutcome
  deriving DecidableEq, Repr, Inhabited

/-- `name = (focus_area.get("name") or "Focus").strip()` in
`fallback_next_action`. -/
def fallbackName (area : FocusArea) : String := pyStrip (pyOr area.name "Focus")

/-- `base = weekly or monthly or "Move this forward with a small concrete
step."` in `fallback_next_action` (weekly/monthly already stripped). -/
def fallbackBase (area : FocusArea) : String :=
  pyOrS (pyStrip (pyOr area.weekly_focus ""))
    (pyOrS (pyStrip (pyOr area.monthly_direction ""))
      "Move this forward with a small concrete step.")

/-- The `variants` list of `fallback_next_action`. -/
def fallbackVariants (area : FocusArea) : List String :=
  ["Do a 15–30 min micro-step toward: " ++ fallbackBase area,
   "Make it real: produce a tiny deliverable toward: " ++ fallbackBase area,
   "Remove one blocker for: " ++ fallbackBase area ++
     " (list 3 sub-steps, then do the first)",
   "Ship something small today for: " ++ fallbackBase area,
   "Review + adjust: what did you learn about " ++ fallbackName area ++
     "? Then choose the next tiny step."]

/-- `fallback_next_action(focus_area, day_index)` (server.py:393-409): a
deterministic template chosen by `day_index % len(variants)` (Python `%`
and Lean `Int.emod` agree for the positive modulus 5). -/
def fallback_next_action (area : FocusArea) (day_index : Int) : String :=
  (fallbackVariants area).getD (day_index % 5).toNat ""

/-- Whether the first character (if any) is non-whitespace: the shape of a
`str.strip()` result. -/
def headCleanB (s : String) : Bool :=
  match s.data.head? with
  | none => true
  | some c => !isPySpace c

/-- Whether the last character (if any) is non-whitespace. -/
def tailCleanB (s : String) : Bool :=
  match s.data.getLast? with
  | none => true
  | some c => !isPySpace c

/-- `generate_next_action_with_ai(plan, focus_area, yesterday_actions,
day_index)` (server.py:412-481). The prompt text built from `plan`,
`area` and `yesterday_actions` only feeds the external call, whose outcome
is the parameter `o`; the function falls back when the client is missing,
the call raises, or the stripped reply is empty, and otherwise returns the
stripped first line of the stripped reply. -/
def generate_next_action_with_ai (configured : Bool) (plan : Plan) (area : FocusArea)
    (yesterday_actions : List DailyAction) (day_index : Int) (o : AIOutcome) : String :=
  if !configured then fallback_next_action area day_index
  else
    match o with
    | .raise => fallback_next_action area day_index
    | .reply content =>
      let out := pyStrip (content.getD "")
      if out = "" then fallback_next_action area day_index
      else pyStrip (pyFirstLine out)

/-- The value a single generation task delivers to `asyncio.gather` in
`ensure_fresh_actions_for_today`: without a configured client the task is
`asyncio.sleep(0, result=fallback_next_action(...))`; with one it is
`gen_one` (semaphore + `generate_next_action_with_ai`). `none` models an
exception escaping the task (collected by `return_exceptions=True`). -/
def generationTask (configured : Bool) (plan : Plan) (area : FocusArea)
    (day_index : Int) (y_list : List DailyAction) (t : TaskOutcome) : Option String :=
  if !configured then some (fallback_next_action area day_index)
  else
    match t with
    | .escape => none
    | .run o => some (generate_next_action_with_ai configured plan area y_list day_index o)

/-- The `action_text` computed from a gather result (server.py:574-579):
exceptions become the safe default; falsy results are replaced by the safe
default; the result is stripped. -/
def actionTextOf (r : Option String) : String :=
  match r with
  | none => "Take one small step today."
  | some s => pyStrip (if s = "" then "Take one small step today." else s)

/-- `focus_name = area.get("name", "Focus")` (dict-get with default: absent
key falls back, an empty string does not). -/
def focusNameOf (area : FocusArea) : String := area.name.getD "Focus"

/-- The existence query of step 2 of `ensure_fresh_actions_for_today`: does
plan `pid` already have a fresh (non-rescheduled) action of the user for
`today`? -/
def hasFreshToday (actions : List DailyAction) (uid : String) (today : Int)
    (pid : String) : Bool :=
  actions.any (fun a => a.user_id == uid && a.day == today &&
    a.rescheduled_from == none && a.plan_id == pid)

def minDay : List Int → Option Int
  | [] => none
  | d :: ds =>
    match minDay ds with
    | none => some d
    | some m => some (min d m)

/-- `func.min(DailyAction.day)` grouped by plan: the plan's first-ever
action day. -/
def firstDayOfPlan (actions : List DailyAction) (uid : String) (pid : String) : Option Int :=
  minDay ((actions.filter (fun a => a.user_id == uid && a.plan_id == pid)).map (fun a => a.day))

/-- `day_index = (today - first_day).days if first_day else 0`. -/
def dayIndexOf (actions : List DailyAction) (uid : String) (today : Int) (pid : String) : Int :=
  match firstDayOfPlan actions uid pid with
  | some d => today - d
  | none => 0

/-- The yesterday actions of one plan (`y_by_plan`). -/
def yesterdayActionsOf (actions : List DailyAction) (uid : String) (today : Int)
    (pid : String) : List DailyAction :=
  actions.filter (fun a => a.user_id == uid && a.plan_id == pid && a.day == today - 1)

/-- Step 1 of `ensure_fresh_actions_for_today`: the user's active plans. -/
def activePlans (plans : List Plan) (uid : String) : List Plan :=
  plans.filter (fun p => p.user_id == uid && p.status == "active")

/-- Steps 2-3: the active plans still lacking a fresh action for today. -/
def plansToGenerate (s : St) (uid : String) (today : Int) : List Plan :=
  (activePlans s.plans uid).filter (fun p => !(hasFreshToday s.actions uid today p.id))

/-- The `(plan, focus area)` pairs the engine generates for, in `task_meta`
order (plans in query order, areas in list order). -/
def genPairs (ptg : List Plan) : List (Plan × FocusArea) :=
  ptg.flatMap (fun p => p.focus_areas.map (fun a => (p, a)))

/-- The `DailyAction(...)` constructor call of the insertion loop of
`ensure_fresh_actions_for_today`. -/
def freshRow (uid : String) (today : Int) (rowId : String) (p : Plan)
    (area : FocusArea) (text : String) : DailyAction :=
  { id := rowId
    user_id := uid
    plan_id := p.id
    focus_area := focusNameOf area
    action := text
    day := today
    completed := false
    completed_at := none
    rescheduled_from := none }

/-- The `new_rows` list built from `zip(task_meta, results)`: one row per
`(plan, focus area)` pair, with `freshId k` the `uuid4` of the `k`-th pair
and `outcomes k` its task outcome. `preActions` is the store as read before
any insert (all queries run before the commit). -/
def buildFreshRows (uid : String) (today : Int) (configured : Bool)
    (outcomes : Nat → TaskOutcome) (freshId : Nat → String)
    (preActions : List DailyAction) : Nat → List (Plan × FocusArea) → List DailyAction
  | _, [] => []
  | k, (p, area) :: rest =>
    freshRow uid today (freshId k) p area
        (actionTextOf (generationTask configured p area
          (dayIndexOf preActions uid today p.id)
          (yesterdayActionsOf preActions uid today p.id) (outcomes k)))
      :: buildFreshRows uid today configured outcomes freshId preActions (k + 1) rest

/-- `ensure_fresh_actions_for_today(db, user_id)` (server.py:484-596) acting
on the store, with `today = effective_day()` passed explicitly:

1. load active plans; return if none;
2. drop plans that already have a fresh action for today; return if none
   remain;
3. for every focus area of every remaining plan, run one bounded-concurrency
   generation task (outcome parameterised) and insert one fresh row per
   pair, in a single batch. -/
def ensure_fresh_actions_for_today (uid : String) (today : Int) (configured : Bool)
    (outcomes : Nat → TaskOutcome) (freshId : Nat → String) (s : St) : St :=
  if (activePlans s.plans uid).isEmpty then s
  else if (plansToGenerate s uid today).isEmpty then s
  else
    let rows := buildFreshRows uid today configured outcomes freshId s.actions 0
      (genPairs (plansToGenerate s uid today))
    { s with actions := s.actions ++ rows }

/-- The failure modes of one generation request named by the spec: the
external generator is unconfigured, the task raises, or the reply strips to
empty output. -/
def genFailed (configured : Bool) (t : TaskOutcome) : Prop :=
  configured = false ∨ t = .escape ∨ t = .run .raise ∨
    ∃ c, t = .run (.reply c) ∧ pyStrip (c.getD "") = ""

/-! ### Progress aggregation, day resolver, check-in -/

/-- The record returned by `calculate_streak`. -/
structure StreakResult where
  current_streak : Nat
  longest_streak : Nat
  total_completed : Nat
  message : String
  deriving DecidableEq, Repr, Inhabited

def insertDesc (x : Int) : List Int → List Int
  | [] => [x]
  | y :: ys => if x ≥ y then x :: y :: ys else y :: insertDesc x ys

/-- Sort a list of days in descending order (`order_by(day.desc())`,
`sorted(..., reverse=True)`). -/
def sortDesc (l : List Int) : List Int := l.foldr insertDesc []

/-- Deduplicate a list of days (`set(days)`); order is irrelevant because
the result is re-sorted. -/
def dedupDays : List Int → List Int
  | [] => []
  | x :: xs =>
    let r := dedupDays xs
    if r.contains x then r else x :: r

/-- The `current_streak` loop of `calculate_streak`: count how many leading
entries of the descending unique-day list equal `today - i`. -/
def streakCount (today : Int) : List Int → Nat → Nat
  | [], _ => 0
  | d :: ds, i => if d = today - i then streakCount today ds (i + 1) + 1 else 0

/-- The `longest` loop of `calculate_streak` over adjacent pairs of the
descending unique-day list. -/
def longestLoop : List Int → Nat → Nat → Nat
  | d1 :: d2 :: rest, run, longest =>
    if d1 - d2 = 1 then longestLoop (d2 :: rest) (run + 1) (max longest (run + 1))
    else longestLoop (d2 :: rest) 1 longest
  | _, _, longest => longest

/-- The streak-length message tiers of `calculate_streak`. -/
def streakMessage (current : Nat) : String :=
  if current = 0 then "Tomorrow is a fresh start! 🌱"
  else if current = 1 then "One day at a time! Keep going 🌟"
  else if current < 7 then
    toString current ++ " days of small steps! You're building something beautiful 🌸"
  else if current < 30 then
    toString current ++ " days of showing up! This is becoming who you are 💫"
  else toString current ++ " days of gentle progress! You're amazing 🌈"

/-- `calculate_streak(db, user_id)` (server.py:672-726) with
`today = effective_day()` passed explicitly: fetch the user's completed-day
column (descending, limited to 2000 rows), return the zero state if none,
else count the current streak from `today` and the longest run of
consecutive days. -/
def calculate_streak (uid : String) (today : Int) (store : List DailyAction) : StreakResult :=
  let days := (sortDesc ((store.filter
    (fun a => a.user_id == uid && a.completed == true)).map (fun a => a.day))).take 2000
  if days.isEmpty then
    { current_streak := 0
      longest_streak := 0
      total_completed := 0
      message := "Start your first action to begin your journey!" }
  else
    let uniqueDays := sortDesc (dedupDays days)
    let current := streakCount today uniqueDays 0
    let longest := max (longestLoop uniqueDays 1 1) current
    { current_streak := current
      longest_streak := longest
      total_completed := days.length
      message := streakMessage current }

/-- Python `date.weekday()` (Monday = 0) for a day count since 1970-01-01
(a Thursday). -/
def pyWeekday (d : Int) : Int := (d + 3) % 7

/-- Python `round(x, 1)` on exact rationals (round half to even). -/
def roundHalfEven (x : ℚ) : Int :=
  let n := Int.floor x
  if x - n < 1 / 2 then n
  else if x - n > 1 / 2 then n + 1
  else if n % 2 = 0 then n else n + 1

def pyRound1 (q : ℚ) : ℚ := (roundHalfEven (q * 10) : ℚ) / 10

/-- One entry of `focus_areas_progress`. -/
structure FocusProgress where
  name : String
  completed : Nat
  total : Nat
  rate : ℚ
  deriving DecidableEq, Repr

/-- The record returned by `generate_weekly_summary` (dates kept as day
counts rather than ISO strings). -/
structure WeeklySummary where
  week_start : Int
  week_end : Int
  total_actions : Nat
  completed_actions : Nat
  completion_rate : ℚ
  focus_areas_progress : List FocusProgress
  wins : List String
  momentum_message : String
  deriving DecidableEq, Repr

/-- One `progress.setdefault / += 1` step of the grouping loop of
`generate_weekly_summary`, preserving first-seen key order like a Python
dict. Accumulator entries are `(name, total, completed)`. -/
def bumpProgress (acc : List (String × Nat × Nat)) (name : String) (comp : Bool) :
    List (String × Nat × Nat) :=
  match acc with
  | [] => [(name, 1, if comp then 1 else 0)]
  | (n, t, c) :: rest =>
    if n = name then (n, t + 1, if comp then c + 1 else c) :: rest
    else (n, t, c) :: bumpProgress rest name comp

def groupProgress (acts : List DailyAction) : List (String × Nat × Nat) :=
  acts.foldl (fun acc a => bumpProgress acc a.focus_area a.completed) []

/-- `generate_weekly_summary(db, user_id)` (server.py:729-786) with
`today = effective_day()` passed explicitly: the Monday-to-Sunday window
containing `today`, the actions of the user in that window, counts, rate,
per-area grouping, up to five wins, and the momentum message tier. -/
def generate_weekly_summary (uid : String) (today : Int) (store : List DailyAction) :
    WeeklySummary :=
  let week_start := today - pyWeekday today
  let week_end := week_start + 6
  let acts := store.filter (fun a => a.user_id == uid &&
    decide (week_start ≤ a.day) && decide (a.day ≤ week_end))
  let total := acts.length
  let completed := (acts.filter (fun a => a.completed)).length
  let completion_rate : ℚ := if total = 0 then 0 else (completed : ℚ) / (total : ℚ) * 100
  let focus_areas_progress := (groupProgress acts).map (fun x =>
    { name := x.1
      completed := x.2.2
      total := x.2.1
      rate := pyRound1 (if x.2.1 = 0 then 0 else (x.2.2 : ℚ) / (x.2.1 : ℚ) * 100) })
  let wins := ((acts.filter (fun a => a.completed)).map
    (fun a => a.focus_area ++ ": " ++ a.action)).take 5
  let momentum_message :=
    if completion_rate ≥ 80 then
      "Incredible momentum this week! " ++ toString completed ++
        " actions completed — you're moving 🚀"
    else if completion_rate ≥ 60 then
      "Solid week! " ++ toString completed ++ " actions done. Keep stacking wins 🌟"
    else if completion_rate ≥ 40 then
      "You showed up " ++ toString completed ++ " times this week. That counts 🌱"
    else if completion_rate > 0 then
      toString completed ++ " small steps this week. Progress > perfection 💚"
    else "New week, fresh start! Your goals are waiting 🌅"
  { week_start := week_start
    week_end := week_end
    total_actions := total
    completed_actions := completed
    completion_rate := pyRound1 completion_rate
    focus_areas_progress := focus_areas_progress
    wins := wins
    momentum_message := momentum_message }

/-- A timestamp already converted to the configured local timezone
(`now_utc.astimezone(LOCAL_TZ)` in `effective_day`): its local calendar
date (as a day count) and local hour/minute. -/
structure LocalTime where
  day : Int
  hour : Nat
  minute : Nat
  deriving DecidableEq, Repr, Inhabited

/-- `effective_day(now_utc)` (server.py:66-76) after the timezone
conversion: the local date, minus one day when the local hour is before the
configured rollover hour. -/
def effective_day (rolloverHour : Nat) (t : LocalTime) : Int :=
  if t.hour < rolloverHour then t.day - 1 else t.day

/-- The `.values(...)` clause of the check-in update statement
(server.py:962-976). -/
def checkInUpdate (completedReq : Bool) (now : Int) (a : DailyAction) : DailyAction :=
  { a with completed := completedReq
           completed_at := if completedReq then some now else none }

/-- The `update(DailyAction).where(id == action_id, user_id == user_id)`
statement of `check_in`: every matching row gets `checkInUpdate`, every
other row is untouched. -/
def check_in (uid : String) (action_id : String) (completedReq : Bool) (now : Int)
    (store : List DailyAction) : List DailyAction :=
  store.map (fun a =>
    if a.id == action_id && a.user_id == uid then checkInUpdate completedReq now a else a)

/-- The `rowcount` the check-in route tests for its 404. -/
def check_in_rowcount (uid : String) (action_id : String) (store : List DailyAction) : Nat :=
  (store.filter (fun a => a.id == action_id && a.user_id == uid)).length

/-- Sample fixtures for concrete witnesses. -/
def sampleArea : FocusArea :=
  ⟨some "Fitness", none, some "run daily", none, none, []⟩

def samplePlan : Plan :=
  ⟨"p1", "u", "g1", [sampleArea], "3_months", "active"⟩

def sampleSt : St := ⟨[samplePlan], []⟩

/-! ### Helper lemmas for the rollover engine -/

theorem carryAll_eq_nil_iff (today : Int) (f : Nat → String) (n : Nat)
    (l : List DailyAction) : carryAll today f n l = [] ↔ l = [] := by
  cases l <;> simp [carryAll]

theorem carryAll_isEmpty (today : Int) (f : Nat → String) (n : Nat)
    (l : List DailyAction) : (carryAll today f n l).isEmpty = l.isEmpty := by
  cases l <;> simp [carryAll]

theorem mem_carryAll (today : Int) (f : Nat → String) (n : Nat)
    (l : List DailyAction) (b : DailyAction) (hb : b ∈ carryAll today f n l) :
    ∃ a ∈ l, ∃ m, b = carryRow today (f m) a := by
  induction l generalizing n with
  | nil => simp [carryAll] at hb
  | cons a rest ih =>
    simp only [carryAll, List.mem_cons] at hb
    rcases hb with h | h
    · exact ⟨a, by simp, n, h⟩
    · obtain ⟨a', ha', m, hm⟩ := ih (n + 1) h
      exact ⟨a', by simp [ha'], m, hm⟩

theorem isCarriedToday_carryRow (uid : String) (today : Int) (i : String)
    (a : DailyAction) (ha : a.user_id = uid) :
    isCarriedToday uid today (carryRow today i a) = true := by
  simp [isCarriedToday, carryRow, ha]

theorem mem_rolloverSources_incomplete (uid : String) (today : Int)
    (store : List DailyAction) (a : DailyAction)
    (ha : a ∈ rolloverSources uid today store) :
    isYesterdayIncomplete uid today a = true := by
  have h := List.mem_filter.mp ha
  exact (List.mem_filter.mp h.1).2

/-- Branch analysis of a single rollover run: either it leaves the store
unchanged for every id supply, or for every id supply it appends the carried
copies of the (nonempty) `rolloverSources` list. -/
theorem reschedule_shape (uid : String) (today : Int) (store : List DailyAction) :
    (∀ f, reschedule_incomplete_actions uid today f store = store) ∨
    (rolloverSources uid today store ≠ [] ∧
      ∀ f, reschedule_incomplete_actions uid today f store =
        store ++ carryAll today f 0 (rolloverSources uid today store)) := by
  by_cases hc : store.any (isCarriedToday uid today)
  · left
    intro f
    simp [reschedule_incomplete_actions, hc]
  · by_cases hrows : (store.filter (isYesterdayIncomplete uid today)).isEmpty
    · left
      intro f
      simp [reschedule_incomplete_actions, hc, hrows]
    · by_cases hsrc : rolloverSources uid today store = []
      · left
        intro f
        simp [reschedule_incomplete_actions, hc, hrows, hsrc, carryAll]
      · right
        refine ⟨hsrc, fun f => ?_⟩
        have hta : (carryAll today f 0 (rolloverSources uid today store)).isEmpty = false := by
          rw [carryAll_isEmpty]
          simpa [List.isEmpty_iff] using hsrc
        simp [reschedule_incomplete_actions, hc, hrows, hta]

/-- **C1.** Invoking the rollover engine twice in succession for the same user
and the same logical day produces the same `DailyAction` store as invoking it
once: the second invocation inserts nothing — when the first invocation
inserted rows it returns immediately because a `DailyAction` now exists with
`day = today` and `rescheduled_from = yesterday`, and when the first
invocation inserted nothing the second recomputes the same empty insertion. -/
theorem rollover_idempotent (uid : String) (today : Int)
    (f₁ f₂ : Nat → String) (store : List DailyAction) :
    reschedule_incomplete_actions uid today f₂
        (reschedule_incomplete_actions uid today f₁ store) =
      reschedule_incomplete_actions uid today f₁ store := by
  rcases reschedule_shape uid today store with h | ⟨hne, h⟩
  · rw [h f₁, h f₂]
  · rw [h f₁]
    -- every inserted row triggers the short-circuit of the second run
    have hmem : ∀ b ∈ carryAll today f₁ 0 (rolloverSources uid today store),
        isCarriedToday uid today b = true := by
      intro b hb
      obtain ⟨a, ha, m, hm⟩ := mem_carryAll _ _ _ _ _ hb
      have hai := mem_rolloverSources_incomplete uid today store a ha
      have huid : a.user_id = uid := by
        simp only [isYesterdayIncomplete, Bool.and_eq_true, beq_iff_eq] at hai
        exact hai.1.1
      rw [hm]
      exact isCarriedToday_carryRow uid today _ a huid
    have hcne : carryAll today f₁ 0 (rolloverSources uid today store) ≠ [] := by
      intro hnil
      exact hne ((carryAll_eq_nil_iff today f₁ 0 _).mp hnil)
    obtain ⟨b, hb⟩ := List.exists_mem_of_ne_nil _ hcne
    have hany : (store ++ carryAll today f₁ 0 (rolloverSources uid today store)).any
        (isCarriedToday uid today) = true := by
      rw [List.any_append, Bool.or_eq_true]
      exact Or.inr (List.any_eq_true.mpr ⟨b, hb, hmem b hb⟩)
    simp [reschedule_incomplete_actions, hany]

theorem carryRow_mem_carryAll (today : Int) (f : Nat → String) (n : Nat)
    (l : List DailyAction) (a : DailyAction) (ha : a ∈ l) :
    ∃ m, carryRow today (f m) a ∈ carryAll today f n l := by
  induction l generalizing n with
  | nil => simp at ha
  | cons x xs ih =>
    rcases List.mem_cons.mp ha with h | h
    · exact ⟨n, by simp [carryAll, h]⟩
    · obtain ⟨m, hm⟩ := ih (n + 1) h
      exact ⟨m, by simp [carryAll, hm]⟩

/-- **C2, counterexample.** The claim as stated fails: in a store where some
carried row for the `yesterday → today` transition already exists (here `c1`,
a leftover of a partial earlier rollover), the engine short-circuits and the
incomplete yesterday row `a1` is never carried: after the run no row of the
user has `day = 1`, `rescheduled_from = 0` and `a1`'s plan/focus/action. -/
theorem rollover_no_loss_counterexample :
    (⟨"a1", "u", "p", "f", "write draft", 0, false, none, none⟩ : DailyAction) ∈
        ([⟨"c1", "u", "p", "f", "other task", 1, false, none, some 0⟩,
          ⟨"a1", "u", "p", "f", "write draft", 0, false, none, none⟩] : List DailyAction) ∧
    ¬ ∃ b ∈ reschedule_incomplete_actions "u" 1 (fun n => toString n)
        [⟨"c1", "u", "p", "f", "other task", 1, false, none, some 0⟩,
         ⟨"a1", "u", "p", "f", "write draft", 0, false, none, none⟩],
        b.user_id = "u" ∧ b.day = 1 ∧ b.rescheduled_from = some 0 ∧
          b.completed = false ∧ b.plan_id = "p" ∧ b.focus_area = "f" ∧
          b.action = "write draft" := by
  decide

/-- **C2, amended.** No-loss carry-forward holds provided no carried row for
the `yesterday → today` transition exists before the run (the short-circuit
of server.py:614-622 does not fire): for every `DailyAction` of the user with
`day = today - 1` and `completed = false`, after the rollover engine runs
there is a `DailyAction` of that user with `day = today`,
`rescheduled_from = today - 1`, `completed = false`, and the same `plan_id`,
`focus_area` and `action` text. -/
theorem rollover_no_loss (uid : String) (today : Int) (f : Nat → String)
    (store : List DailyAction) (a : DailyAction)
    (hclean : ∀ b ∈ store,
      ¬(b.user_id = uid ∧ b.day = today ∧ b.rescheduled_from = some (today - 1)))
    (ha : a ∈ store) (hau : a.user_id = uid) (had : a.day = today - 1)
    (hac : a.completed = false) :
    ∃ b ∈ reschedule_incomplete_actions uid today f store,
      b.user_id = uid ∧ b.day = today ∧ b.rescheduled_from = some (today - 1) ∧
        b.completed = false ∧ b.plan_id = a.plan_id ∧
        b.focus_area = a.focus_area ∧ b.action = a.action := by
  have hai : isYesterdayIncomplete uid today a = true := by
    simp [isYesterdayIncomplete, hau, had, hac]
  have hcarr : ∀ b ∈ store, isCarriedToday uid today b = false := by
    intro b hb
    refine Bool.eq_false_iff.mpr fun h => hclean b hb ?_
    simpa [isCarriedToday, Bool.and_eq_true, beq_iff_eq, and_assoc] using h
  have hany : store.any (isCarriedToday uid today) = false := by
    refine Bool.eq_false_iff.mpr fun h => ?_
    obtain ⟨b, hb, hbt⟩ := List.any_eq_true.mp h
    rw [hcarr b hb] at hbt
    exact Bool.false_ne_true hbt
  have hfilter : store.filter (isCarriedToday uid today) = [] := by
    refine List.filter_eq_nil_iff.mpr fun b hb => ?_
    simp [hcarr b hb]
  have hsrc : rolloverSources uid today store =
      store.filter (isYesterdayIncomplete uid today) := by
    unfold rolloverSources
    rw [hfilter]
    simp
  have hasrc : a ∈ rolloverSources uid today store := by
    rw [hsrc]
    exact List.mem_filter.mpr ⟨ha, hai⟩
  have hne : rolloverSources uid today store ≠ [] := by
    intro h
    rw [h] at hasrc
    simp at hasrc
  have hrows : (store.filter (isYesterdayIncomplete uid today)).isEmpty = false := by
    refine Bool.eq_false_iff.mpr fun h => ?_
    have h' := List.isEmpty_iff.mp h
    rw [← hsrc] at h'
    exact hne h'
  have hta : (carryAll today f 0 (rolloverSources uid today store)).isEmpty = false := by
    rw [carryAll_isEmpty]
    refine Bool.eq_false_iff.mpr fun h => hne (List.isEmpty_iff.mp h)
  have hres : reschedule_incomplete_actions uid today f store =
      store ++ carryAll today f 0 (rolloverSources uid today store) := by
    simp [reschedule_incomplete_actions, hany, hrows, hta]
  obtain ⟨m, hm⟩ := carryRow_mem_carryAll today f 0 _ a hasrc
  refine ⟨carryRow today (f m) a, ?_, ?_⟩
  · rw [hres]
    exact List.mem_append_right _ hm
  · simp [carryRow, hau]

/-- Witness for `rollover_no_loss` at a concrete store: a single incomplete
row of day 0 is carried to day 1 by the run. -/
theorem rollover_no_loss_witness :
    ∃ b ∈ reschedule_incomplete_actions "u" 1 (fun n => toString n)
        [⟨"a0", "u", "p", "f", "write draft", 0, false, none, none⟩],
      b.user_id = "u" ∧ b.day = 1 ∧ b.rescheduled_from = some 0 ∧
        b.completed = false ∧ b.plan_id = "p" ∧ b.focus_area = "f" ∧
        b.action = "write draft" :=
  rollover_no_loss "u" 1 (fun n => toString n)
    [⟨"a0", "u", "p", "f", "write draft", 0, false, none, none⟩]
    ⟨"a0", "u", "p", "f", "write draft", 0, false, none, none⟩
    (by decide) (by decide) (by decide) (by decide) (by decide)

theorem hasDuplicateQuadForDay_eq_false_iff (today : Int) (l : List DailyAction) :
    hasDuplicateQuadForDay today l = false ↔
      l.Pairwise (fun b1 b2 => sameQuadToday today b1 b2 = false) := by
  induction l with
  | nil => simp [hasDuplicateQuadForDay]
  | cons b rest ih =>
    simp [hasDuplicateQuadForDay, List.pairwise_cons, ih, List.any_eq_true]

theorem hasDuplicateTriple_eq_false_iff (l : List DailyAction) :
    hasDuplicateTriple l = false ↔
      l.Pairwise (fun a b => actionTriple a ≠ actionTriple b) := by
  induction l with
  | nil => simp [hasDuplicateTriple]
  | cons a rest ih =>
    simp [hasDuplicateTriple, List.pairwise_cons, ih, List.any_eq_true]

theorem sameQuadToday_carryRow_eq_false (today : Int) (i j : String)
    (a a' : DailyAction) (hne : actionTriple a ≠ actionTriple a') :
    sameQuadToday today (carryRow today i a) (carryRow today j a') = false := by
  refine Bool.eq_false_iff.mpr fun hq => hne ?_
  simp only [sameQuadToday, carryRow, Bool.and_eq_true, beq_iff_eq] at hq
  obtain ⟨⟨⟨⟨⟨⟨-, -⟩, -⟩, hp⟩, hf⟩, hact⟩, -⟩ := hq
  simp only [actionTriple, Prod.mk.injEq]
  exact ⟨hp, hf, hact⟩

theorem pairwise_carryAll (today : Int) (f : Nat → String) (n : Nat)
    (l : List DailyAction)
    (h : l.Pairwise (fun a b => actionTriple a ≠ actionTriple b)) :
    (carryAll today f n l).Pairwise (fun b1 b2 => sameQuadToday today b1 b2 = false) := by
  induction l generalizing n with
  | nil => simp [carryAll]
  | cons a rest ih =>
    rw [List.pairwise_cons] at h
    simp only [carryAll]
    rw [List.pairwise_cons]
    refine ⟨fun b hb => ?_, ih (n + 1) h.2⟩
    obtain ⟨a', ha', m, hm⟩ := mem_carryAll _ _ _ _ _ hb
    rw [hm]
    exact sameQuadToday_carryRow_eq_false today _ _ a a' (h.1 a' ha')

/-- **C3, counterexample.** The claim as stated fails: when yesterday holds
two incomplete rows with the same `(plan_id, focus_area, action)` triple, a
single run of the rollover engine carries both (its `existing_keys`
de-duplication only checks rows already in the store), leaving two rows for
today with equal `(plan_id, focus_area, action, rescheduled_from)`. -/
theorem rollover_dedup_counterexample :
    hasDuplicateQuadForDay 1
        ([⟨"y1", "u", "p", "f", "same step", 0, false, none, none⟩,
          ⟨"y2", "u", "p", "f", "same step", 0, false, none, none⟩] :
          List DailyAction) = false ∧
    hasDuplicateQuadForDay 1
        (reschedule_incomplete_actions "u" 1 (fun n => toString n)
          [⟨"y1", "u", "p", "f", "same step", 0, false, none, none⟩,
           ⟨"y2", "u", "p", "f", "same step", 0, false, none, none⟩]) = true := by
  decide

/-- **C3, amended.** The de-duplication invariant holds for starting states
whose yesterday incompletes have pairwise distinct
`(plan_id, focus_area, action)` triples: if the store has no duplicate
`(user_id, plan_id, focus_area, action, rescheduled_from)` quadruple among
rows for `today`, then after a single rollover run it still has none — the
engine de-duplicates against existing carried rows before inserting, but not
within its own insertion batch, which is why the distinct-triples hypothesis
is needed. -/
theorem rollover_dedup (uid : String) (today : Int) (f : Nat → String)
    (store : List DailyAction)
    (h1 : hasDuplicateQuadForDay today store = false)
    (h2 : hasDuplicateTriple (store.filter (isYesterdayIncomplete uid today)) = false) :
    hasDuplicateQuadForDay today
      (reschedule_incomplete_actions uid today f store) = false := by
  rcases reschedule_shape uid today store with h | ⟨hne, h⟩
  · rw [h f]
    exact h1
  · rw [h f]
    rw [hasDuplicateQuadForDay_eq_false_iff] at h1 ⊢
    rw [hasDuplicateTriple_eq_false_iff] at h2
    rw [List.pairwise_append]
    have hsubl : List.Sublist (rolloverSources uid today store)
        (store.filter (isYesterdayIncomplete uid today)) :=
      List.filter_sublist _
    have hsrcpw : (rolloverSources uid today store).Pairwise
        (fun a b => actionTriple a ≠ actionTriple b) := h2.sublist hsubl
    refine ⟨h1, pairwise_carryAll today f 0 _ hsrcpw, ?_⟩
    intro x hx b hb
    obtain ⟨a, ha, m, hm⟩ := mem_carryAll _ _ _ _ _ hb
    have hmemf := List.mem_filter.mp ha
    have hnotkey : (((store.filter (isCarriedToday uid today)).map actionTriple).contains
        (actionTriple a)) = false := by
      have h' := hmemf.2
      simpa using h'
    have hai : isYesterdayIncomplete uid today a = true :=
      (List.mem_filter.mp hmemf.1).2
    have hauid : a.user_id = uid := by
      simp only [isYesterdayIncomplete, Bool.and_eq_true, beq_iff_eq] at hai
      exact hai.1.1
    refine Bool.eq_false_iff.mpr fun hq => ?_
    rw [hm] at hq
    simp only [sameQuadToday, carryRow, Bool.and_eq_true, beq_iff_eq] at hq
    obtain ⟨⟨⟨⟨⟨⟨hu, hd⟩, -⟩, hp⟩, hfoc⟩, hact⟩, hr⟩ := hq
    have hxcarr : isCarriedToday uid today x = true := by
      simp [isCarriedToday, hu, hauid, hd, hr]
    have hxkey : actionTriple x ∈
        (store.filter (isCarriedToday uid today)).map actionTriple :=
      List.mem_map_of_mem actionTriple (List.mem_filter.mpr ⟨hx, hxcarr⟩)
    have htripeq : actionTriple x = actionTriple a := by
      simp only [actionTriple, Prod.mk.injEq]
      exact ⟨hp, hfoc, hact⟩
    rw [htripeq] at hxkey
    simp only [List.contains, List.elem_eq_true_of_mem hxkey] at hnotkey
    exact Bool.noConfusion hnotkey

/-- Witness for `rollover_dedup` at a concrete store: one incomplete
yesterday row, duplicate-free before and after the run. -/
theorem rollover_dedup_witness :
    hasDuplicateQuadForDay 2
      (reschedule_incomplete_actions "w" 2 (fun n => toString n)
        [⟨"b0", "w", "q", "g", "call mentor", 1, false, none, none⟩]) = false :=
  rollover_dedup "w" 2 (fun n => toString n)
    [⟨"b0", "w", "q", "g", "call mentor", 1, false, none, none⟩]
    (by decide) (by decide)

/-! ### Helper lemmas for the fresh-action engine -/

theorem buildFreshRows_length (uid : String) (today : Int) (cfg : Bool)
    (out : Nat → TaskOutcome) (f : Nat → String) (pre : List DailyAction)
    (k : Nat) (pairs : List (Plan × FocusArea)) :
    (buildFreshRows uid today cfg out f pre k pairs).length = pairs.length := by
  induction pairs generalizing k with
  | nil => simp [buildFreshRows]
  | cons pa rest ih =>
    obtain ⟨p, area⟩ := pa
    simp [buildFreshRows, ih]

theorem mem_buildFreshRows_of_mem (uid : String) (today : Int) (cfg : Bool)
    (out : Nat → TaskOutcome) (f : Nat → String) (pre : List DailyAction)
    (k : Nat) (pairs : List (Plan × FocusArea)) (p : Plan) (area : FocusArea)
    (h : (p, area) ∈ pairs) :
    ∃ r ∈ buildFreshRows uid today cfg out f pre k pairs,
      r.plan_id = p.id ∧ r.user_id = uid ∧ r.day = today ∧
        r.rescheduled_from = none := by
  induction pairs generalizing k with
  | nil => simp at h
  | cons pa rest ih =>
    obtain ⟨q, b⟩ := pa
    rcases List.mem_cons.mp h with h | h
    · rw [Prod.mk.injEq] at h
      obtain ⟨hp, hb⟩ := h
      subst hp
      subst hb
      refine ⟨freshRow uid today (f k) p area
        (actionTextOf (generationTask cfg p area
          (dayIndexOf pre uid today p.id)
          (yesterdayActionsOf pre uid today p.id) (out k))), ?_, by simp [freshRow]⟩
      simp [buildFreshRows]
    · obtain ⟨r, hr, hf⟩ := ih (k + 1) h
      refine ⟨r, ?_, hf⟩
      simp only [buildFreshRows, List.mem_cons]
      exact Or.inr hr

theorem mem_genPairs (ptg : List Plan) (p : Plan) (area : FocusArea)
    (hp : p ∈ ptg) (ha : area ∈ p.focus_areas) : (p, area) ∈ genPairs ptg := by
  simp only [genPairs, List.mem_flatMap]
  exact ⟨p, hp, List.mem_map_of_mem _ ha⟩

theorem genPairs_eq_nil (ptg : List Plan) (h : ∀ p ∈ ptg, p.focus_areas = []) :
    genPairs ptg = [] := by
  induction ptg with
  | nil => rfl
  | cons p rest ih =>
    have hp := h p (List.mem_cons_self p rest)
    have hrest : genPairs rest = [] := ih fun q hq => h q (List.mem_cons_of_mem p hq)
    simp [genPairs, hp] at hrest ⊢
    intro q hq
    have hq' := h q (List.mem_cons_of_mem p hq)
    simp [hq']

theorem hasFreshToday_append (l₁ l₂ : List DailyAction) (uid : String)
    (today : Int) (pid : String) :
    hasFreshToday (l₁ ++ l₂) uid today pid =
      (hasFreshToday l₁ uid today pid || hasFreshToday l₂ uid today pid) := by
  simp [hasFreshToday, List.any_append]

theorem hasFreshToday_of_mem (l : List DailyAction) (uid : String) (today : Int)
    (pid : String) (r : DailyAction) (hr : r ∈ l) (hu : r.user_id = uid)
    (hd : r.day = today) (hn : r.rescheduled_from = none) (hp : r.plan_id = pid) :
    hasFreshToday l uid today pid = true :=
  List.any_eq_true.mpr ⟨r, hr, by simp [hu, hd, hn, hp]⟩

/-- **C4.** Invoking the fresh-action engine twice in succession for the
same user and logical day is idempotent: the second invocation inserts
nothing — in particular no duplicate fresh (`rescheduled_from = null`) rows
for any plan/day — because after the first run every plan that can receive
a row already has at least one fresh `DailyAction` for today and is
filtered out, and the remaining plans have no focus areas to generate for.
The second run's generator outcomes and id supply are arbitrary. -/
theorem fresh_actions_idempotent (uid : String) (today : Int)
    (cfg₁ cfg₂ : Bool) (out₁ out₂ : Nat → TaskOutcome)
    (f₁ f₂ : Nat → String) (s : St) :
    ensure_fresh_actions_for_today uid today cfg₂ out₂ f₂
        (ensure_fresh_actions_for_today uid today cfg₁ out₁ f₁ s) =
      ensure_fresh_actions_for_today uid today cfg₁ out₁ f₁ s := by
  by_cases hp : (activePlans s.plans uid).isEmpty
  · simp [ensure_fresh_actions_for_today, hp]
  · by_cases hg : (plansToGenerate s uid today).isEmpty
    · simp [ensure_fresh_actions_for_today, hp, hg]
    · generalize hR : buildFreshRows uid today cfg₁ out₁ f₁ s.actions 0
        (genPairs (plansToGenerate s uid today)) = R
      have h1 : ensure_fresh_actions_for_today uid today cfg₁ out₁ f₁ s =
          { s with actions := s.actions ++ R } := by
        simp [ensure_fresh_actions_for_today, hp, hg, hR]
      rw [h1]
      have hp1 : (activePlans ({ s with actions := s.actions ++ R } : St).plans
          uid).isEmpty = false :=
        Bool.eq_false_iff.mpr hp
      have hkey : ∀ p ∈ plansToGenerate ({ s with actions := s.actions ++ R } : St)
          uid today, p.focus_areas = [] := by
        intro p hp'
        simp only [plansToGenerate] at hp'
        have hmem := List.mem_filter.mp hp'
        have hnf : hasFreshToday (s.actions ++ R) uid today p.id = false := by
          have h' := hmem.2
          simpa using h'
        rw [hasFreshToday_append, Bool.or_eq_false_iff] at hnf
        have hpg : p ∈ plansToGenerate s uid today := by
          simp only [plansToGenerate]
          refine List.mem_filter.mpr ⟨?_, by simp [hnf.1]⟩
          simpa using hmem.1
        by_contra hne
        obtain ⟨area, harea⟩ : ∃ a, a ∈ p.focus_areas := by
          cases hfa : p.focus_areas with
          | nil => exact absurd hfa hne
          | cons a rest => exact ⟨a, by simp [hfa]⟩
        have hpair := mem_genPairs _ p area hpg harea
        obtain ⟨r, hr, hrp, hru, hrd, hrr⟩ :=
          mem_buildFreshRows_of_mem uid today cfg₁ out₁ f₁ s.actions 0 _ p area hpair
        rw [hR] at hr
        have htrue : hasFreshToday R uid today p.id = true :=
          hasFreshToday_of_mem _ uid today p.id r hr hru hrd hrr hrp
        rw [htrue] at hnf
        exact Bool.noConfusion hnf.2
      by_cases hg2 : (plansToGenerate ({ s with actions := s.actions ++ R } : St)
          uid today).isEmpty
      · simp [ensure_fresh_actions_for_today, hp1, hg2]
      · have hnilpairs : genPairs (plansToGenerate
            ({ s with actions := s.actions ++ R } : St) uid today) = [] :=
          genPairs_eq_nil _ hkey
        simp [ensure_fresh_actions_for_today, hp1, hg2, hnilpairs, buildFreshRows]

/-! ### String lemmas for the generation pipeline -/

theorem data_ne_nil_of_ne_empty (s : String) (h : s ≠ "") : s.data ≠ [] := by
  intro hd
  exact h (String.ext hd)

theorem ne_empty_of_data_ne_nil (s : String) (h : s.data ≠ []) : s ≠ "" := by
  intro he
  rw [he] at h
  exact h rfl

theorem head_stripLeft (l : List Char) (c : Char)
    (h : (stripLeft l).head? = some c) : isPySpace c = false := by
  induction l with
  | nil => simp [stripLeft] at h
  | cons a as ih =>
    by_cases ha : isPySpace a
    · rw [show stripLeft (a :: as) = stripLeft as by simp [stripLeft, List.dropWhile_cons, ha]] at h
      exact ih h
    · rw [show stripLeft (a :: as) = a :: as by simp [stripLeft, List.dropWhile_cons, ha]] at h
      simp only [List.head?_cons, Option.some.injEq] at h
      rw [← h]
      exact Bool.eq_false_iff.mpr ha

theorem head?_stripRight (l : List Char) :
    stripRight l = [] ∨ (stripRight l).head? = l.head? := by
  induction l with
  | nil => exact Or.inl rfl
  | cons c cs ih =>
    cases h : stripRight cs with
    | nil =>
      by_cases hc : isPySpace c
      · left
        simp [stripRight, h, hc]
      · right
        simp [stripRight, h, hc]
    | cons d ds =>
      right
      simp [stripRight, h]

theorem getLast?_stripRight (l : List Char) (c : Char)
    (h : (stripRight l).getLast? = some c) : isPySpace c = false := by
  induction l with
  | nil => simp [stripRight] at h
  | cons a as ih =>
    cases hs : stripRight as with
    | nil =>
      by_cases ha : isPySpace a
      · rw [show stripRight (a :: as) = [] by simp [stripRight, hs, ha]] at h
        simp at h
      · rw [show stripRight (a :: as) = [a] by simp [stripRight, hs, ha]] at h
        simp only [List.getLast?_singleton, Option.some.injEq] at h
        rw [← h]
        exact Bool.eq_false_iff.mpr ha
    | cons d ds =>
      rw [show stripRight (a :: as) = a :: d :: ds by simp [stripRight, hs]] at h
      rw [List.getLast?_cons_cons] at h
      rw [← hs] at h
      exact ih h

theorem stripLeft_eq_self (l : List Char)
    (h : ∀ c, l.head? = some c → isPySpace c = false) : stripLeft l = l := by
  cases l with
  | nil => rfl
  | cons a as =>
    have ha := h a rfl
    simp [stripLeft, List.dropWhile_cons, ha]

theorem stripRight_cons_of_ne_nil (a : Char) (as : List Char)
    (h : stripRight as ≠ []) : stripRight (a :: as) = a :: stripRight as := by
  cases hs : stripRight as with
  | nil => exact absurd hs h
  | cons d ds => simp [stripRight, hs]

theorem stripRight_eq_self (l : List Char)
    (h : ∀ c, l.getLast? = some c → isPySpace c = false) : stripRight l = l := by
  induction l with
  | nil => rfl
  | cons a as ih =>
    cases as with
    | nil =>
      have ha := h a rfl
      simp [stripRight, ha]
    | cons b bs =>
      have hr : stripRight (b :: bs) = b :: bs := by
        refine ih fun c hc => h c ?_
        rw [List.getLast?_cons_cons]
        exact hc
      have hne : stripRight (b :: bs) ≠ [] := by
        rw [hr]
        simp
      rw [stripRight_cons_of_ne_nil a _ hne, hr]

theorem headCleanB_pyStrip (s : String) : headCleanB (pyStrip s) = true := by
  unfold headCleanB
  cases hh : (pyStrip s).data.head? with
  | none => rfl
  | some c =>
    rcases head?_stripRight (stripLeft s.data) with h | h
    · rw [show (pyStrip s).data = stripRight (stripLeft s.data) from rfl, h] at hh
      simp at hh
    · rw [show (pyStrip s).data = stripRight (stripLeft s.data) from rfl, h] at hh
      simp [head_stripLeft s.data c hh]

theorem tailCleanB_pyStrip (s : String) : tailCleanB (pyStrip s) = true := by
  unfold tailCleanB
  cases hh : (pyStrip s).data.getLast? with
  | none => rfl
  | some c =>
    rw [show (pyStrip s).data = stripRight (stripLeft s.data) from rfl] at hh
    simp [getLast?_stripRight _ c hh]

theorem pyStrip_eq_self (s : String) (h1 : headCleanB s = true)
    (h2 : tailCleanB s = true) : pyStrip s = s := by
  unfold headCleanB at h1
  unfold tailCleanB at h2
  have hL : stripLeft s.data = s.data := by
    refine stripLeft_eq_self s.data fun c hc => ?_
    rw [hc] at h1
    simpa using h1
  have hR : stripRight s.data = s.data := by
    refine stripRight_eq_self s.data fun c hc => ?_
    rw [hc] at h2
    simpa using h2
  show (⟨stripRight (stripLeft s.data)⟩ : String) = s
  rw [hL, hR]

theorem pyStrip_idem (s : String) : pyStrip (pyStrip s) = pyStrip s :=
  pyStrip_eq_self _ (headCleanB_pyStrip s) (tailCleanB_pyStrip s)

theorem stripRight_ne_nil_of_head (l : List Char) (c : Char)
    (hh : l.head? = some c) (hc : isPySpace c = false) : stripRight l ≠ [] := by
  cases l with
  | nil => simp at hh
  | cons a as =>
    simp only [List.head?_cons, Option.some.injEq] at hh
    subst hh
    cases hs : stripRight as with
    | nil => simp [stripRight, hs, hc]
    | cons d ds => simp [stripRight, hs]

theorem pyStrip_ne_empty (s : String) (h : headCleanB s = true) (hne : s ≠ "") :
    pyStrip s ≠ "" := by
  have hd := data_ne_nil_of_ne_empty s hne
  obtain ⟨c, cs, hc⟩ : ∃ c cs, s.data = c :: cs := by
    cases hcs : s.data with
    | nil => exact absurd hcs hd
    | cons c cs => exact ⟨c, cs, rfl⟩
  have hcc : isPySpace c = false := by
    unfold headCleanB at h
    rw [hc] at h
    simpa using h
  have hL : stripLeft s.data = s.data :=
    stripLeft_eq_self s.data fun d hdc => by
      rw [hc] at hdc
      simp only [List.head?_cons, Option.some.injEq] at hdc
      rw [← hdc]
      exact hcc
  refine ne_empty_of_data_ne_nil _ ?_
  show stripRight (stripLeft s.data) ≠ []
  rw [hL, hc]
  exact stripRight_ne_nil_of_head _ c (by simp) hcc

theorem append_ne_empty_left (s t : String) (h : s ≠ "") : s ++ t ≠ "" := by
  refine ne_empty_of_data_ne_nil _ ?_
  rw [String.data_append]
  have := data_ne_nil_of_ne_empty s h
  intro hap
  rcases List.append_eq_nil.mp hap with ⟨h1, -⟩
  exact this h1

theorem headCleanB_append (s t : String) (hs : headCleanB s = true) (hne : s ≠ "") :
    headCleanB (s ++ t) = true := by
  obtain ⟨c, cs, hc⟩ : ∃ c cs, s.data = c :: cs := by
    cases hcs : s.data with
    | nil => exact absurd hcs (data_ne_nil_of_ne_empty s hne)
    | cons c cs => exact ⟨c, cs, rfl⟩
  unfold headCleanB at hs ⊢
  rw [hc] at hs
  rw [String.data_append, hc]
  simp only [List.cons_append, List.head?_cons]
  simpa using hs

theorem tailCleanB_append (s t : String) (ht : tailCleanB t = true) (hne : t ≠ "") :
    tailCleanB (s ++ t) = true := by
  unfold tailCleanB at ht ⊢
  rw [String.data_append, List.getLast?_append]
  cases hg : t.data.getLast? with
  | none =>
    exact absurd (List.getLast?_eq_none_iff.mp hg) (data_ne_nil_of_ne_empty t hne)
  | some c =>
    rw [hg] at ht
    simpa using ht

/-! ### Fallback templates are stripped, non-empty strings -/

theorem fallbackBase_spec (area : FocusArea) :
    fallbackBase area ≠ "" ∧ headCleanB (fallbackBase area) = true ∧
      tailCleanB (fallbackBase area) = true := by
  unfold fallbackBase pyOrS
  by_cases h1 : pyStrip (pyOr area.weekly_focus "") = ""
  · rw [if_pos h1]
    by_cases h2 : pyStrip (pyOr area.monthly_direction "") = ""
    · rw [if_pos h2]
      refine ⟨by decide, by decide, by decide⟩
    · rw [if_neg h2]
      exact ⟨h2, headCleanB_pyStrip _, tailCleanB_pyStrip _⟩
  · rw [if_neg h1]
    exact ⟨h1, headCleanB_pyStrip _, tailCleanB_pyStrip _⟩

theorem fallback_mem_variants (area : FocusArea) (di : Int) :
    fallback_next_action area di ∈ fallbackVariants area := by
  unfold fallback_next_action
  have h5 : (di % 5).toNat < 5 := by
    have h0 : 0 ≤ di % 5 := Int.emod_nonneg di (by norm_num)
    have h1 : di % 5 < 5 := Int.emod_lt_of_pos di (by norm_num)
    omega
  have hlen : (fallbackVariants area).length = 5 := by simp [fallbackVariants]
  rw [List.getD_eq_getElem?_getD, List.getElem?_eq_getElem (by rw [hlen]; exact h5)]
  exact List.getElem_mem _

theorem variants_clean (area : FocusArea) :
    ∀ v ∈ fallbackVariants area, pyStrip v = v ∧ v ≠ "" := by
  obtain ⟨hbne, hbh, hbt⟩ := fallbackBase_spec area
  intro v hv
  simp only [fallbackVariants, List.mem_cons, List.not_mem_nil, or_false] at hv
  rcases hv with rfl | rfl | rfl | rfl | rfl
  · exact ⟨pyStrip_eq_self _
      (headCleanB_append _ _ (by decide) (by decide))
      (tailCleanB_append _ _ hbt hbne),
      append_ne_empty_left _ _ (by decide)⟩
  · exact ⟨pyStrip_eq_self _
      (headCleanB_append _ _ (by decide) (by decide))
      (tailCleanB_append _ _ hbt hbne),
      append_ne_empty_left _ _ (by decide)⟩
  · refine ⟨pyStrip_eq_self _ ?_ ?_, ?_⟩
    · exact headCleanB_append _ _
        (headCleanB_append _ _ (by decide) (by decide))
        (append_ne_empty_left _ _ (by decide))
    · exact tailCleanB_append _ _ (by decide) (by decide)
    · exact append_ne_empty_left _ _ (append_ne_empty_left _ _ (by decide))
  · exact ⟨pyStrip_eq_self _
      (headCleanB_append _ _ (by decide) (by decide))
      (tailCleanB_append _ _ hbt hbne),
      append_ne_empty_left _ _ (by decide)⟩
  · refine ⟨pyStrip_eq_self _ ?_ ?_, ?_⟩
    · exact headCleanB_append _ _
        (headCleanB_append _ _ (by decide) (by decide))
        (append_ne_empty_left _ _ (by decide))
    · exact tailCleanB_append _ _ (by decide) (by decide)
    · exact append_ne_empty_left _ _ (append_ne_empty_left _ _ (by decide))

theorem fallback_pyStrip (area : FocusArea) (di : Int) :
    pyStrip (fallback_next_action area di) = fallback_next_action area di :=
  (variants_clean area _ (fallback_mem_variants area di)).1

theorem fallback_ne_empty (area : FocusArea) (di : Int) :
    fallback_next_action area di ≠ "" :=
  (variants_clean area _ (fallback_mem_variants area di)).2

theorem actionTextOf_some_of_clean (s : String) (hfix : pyStrip s = s) (hne : s ≠ "") :
    actionTextOf (some s) = s := by
  show pyStrip (if s = "" then "Take one small step today." else s) = s
  rw [if_neg hne, hfix]

/-! ### Every generation task resolves to a usable action text -/

theorem actionText_generationTask_ne_empty (cfg : Bool) (p : Plan) (area : FocusArea)
    (di : Int) (y : List DailyAction) (t : TaskOutcome) :
    actionTextOf (generationTask cfg p area di y t) ≠ "" := by
  have hfb : actionTextOf (some (fallback_next_action area di)) =
      fallback_next_action area di :=
    actionTextOf_some_of_clean _ (fallback_pyStrip area di) (fallback_ne_empty area di)
  cases cfg with
  | false =>
    show actionTextOf (some (fallback_next_action area di)) ≠ ""
    rw [hfb]
    exact fallback_ne_empty area di
  | true =>
    cases t with
    | escape =>
      show actionTextOf none ≠ ""
      decide
    | run o =>
      show actionTextOf (some (generate_next_action_with_ai true p area y di o)) ≠ ""
      cases o with
      | raise =>
        rw [show generate_next_action_with_ai true p area y di .raise =
          fallback_next_action area di from rfl, hfb]
        exact fallback_ne_empty area di
      | reply c =>
        by_cases hout : pyStrip (c.getD "") = ""
        · have hg : generate_next_action_with_ai true p area y di (.reply c) =
              fallback_next_action area di := by
            simp [generate_next_action_with_ai, hout]
          rw [hg, hfb]
          exact fallback_ne_empty area di
        · have hg : generate_next_action_with_ai true p area y di (.reply c) =
              pyStrip (pyFirstLine (pyStrip (c.getD ""))) := by
            simp [generate_next_action_with_ai, hout]
          rw [hg]
          by_cases hs0 : pyStrip (pyFirstLine (pyStrip (c.getD ""))) = ""
          · show pyStrip (if pyStrip (pyFirstLine (pyStrip (c.getD ""))) = ""
              then "Take one small step today."
              else pyStrip (pyFirstLine (pyStrip (c.getD "")))) ≠ ""
            rw [if_pos hs0]
            decide
          · show pyStrip (if pyStrip (pyFirstLine (pyStrip (c.getD ""))) = ""
              then "Take one small step today."
              else pyStrip (pyFirstLine (pyStrip (c.getD "")))) ≠ ""
            rw [if_neg hs0, pyStrip_idem]
            exact hs0

theorem actionText_generationTask_of_failed (cfg : Bool) (p : Plan) (area : FocusArea)
    (di : Int) (y : List DailyAction) (t : TaskOutcome) (hf : genFailed cfg t) :
    actionTextOf (generationTask cfg p area di y t) = fallback_next_action area di ∨
      actionTextOf (generationTask cfg p area di y t) = "Take one small step today." := by
  have hfb : actionTextOf (some (fallback_next_action area di)) =
      fallback_next_action area di :=
    actionTextOf_some_of_clean _ (fallback_pyStrip area di) (fallback_ne_empty area di)
  cases cfg with
  | false =>
    left
    show actionTextOf (some (fallback_next_action area di)) = _
    rw [hfb]
  | true =>
    rcases hf with hc | ht | ht | ⟨c, ht, hstrip⟩
    · exact absurd hc (by simp)
    · subst ht
      right
      rfl
    · subst ht
      left
      show actionTextOf (some (generate_next_action_with_ai true p area y di .raise)) = _
      rw [show generate_next_action_with_ai true p area y di .raise =
        fallback_next_action area di from rfl, hfb]
    · subst ht
      left
      have hg : generate_next_action_with_ai true p area y di (.reply c) =
          fallback_next_action area di := by
        simp [generate_next_action_with_ai, hstrip]
      show actionTextOf (some (generate_next_action_with_ai true p area y di (.reply c))) = _
      rw [hg, hfb]

theorem buildFreshRows_getD (uid : String) (today : Int) (cfg : Bool)
    (out : Nat → TaskOutcome) (f : Nat → String) (pre : List DailyAction)
    (pairs : List (Plan × FocusArea)) (k j : Nat) (hj : j < pairs.length) :
    (buildFreshRows uid today cfg out f pre k pairs).getD j default =
      freshRow uid today (f (k + j)) (pairs.getD j default).1 (pairs.getD j default).2
        (actionTextOf (generationTask cfg (pairs.getD j default).1
          (pairs.getD j default).2
          (dayIndexOf pre uid today (pairs.getD j default).1.id)
          (yesterdayActionsOf pre uid today (pairs.getD j default).1.id)
          (out (k + j)))) := by
  induction pairs generalizing k j with
  | nil => simp at hj
  | cons pa rest ih =>
    obtain ⟨p, area⟩ := pa
    cases j with
    | zero =>
      simp [buildFreshRows]
    | succ j =>
      have hj' : j < rest.length := by simpa using hj
      have hstep : (buildFreshRows uid today cfg out f pre k ((p, area) :: rest)).getD
          (j + 1) default =
          (buildFreshRows uid today cfg out f pre (k + 1) rest).getD j default := by
        simp [buildFreshRows]
      rw [hstep, show ((p, area) :: rest).getD (j + 1) default = rest.getD j default
        from by simp, show k + (j + 1) = k + 1 + j from by omega]
      exact ih (k + 1) j hj'

/-- **C5.** Every generation request resolves to a non-empty action string
and failures are isolated: when the engine generates (active plans exist and
some lack a fresh action), it appends exactly one row per `(plan, focus
area)` pair; the `j`-th row belongs to the `j`-th pair and carries a
non-empty action text; and if the `j`-th task fails (generator unconfigured,
exception, or empty output) that row still receives a `fallback_next_action`
template or the safe default `"Take one small step today."` — errors are
never propagated (the engine is a total function) and the other pairs keep
their rows regardless of `j`'s outcome. -/
theorem fresh_actions_fallback_isolation (uid : String) (today : Int) (cfg : Bool)
    (out : Nat → TaskOutcome) (f : Nat → String) (s : St) (j : Nat)
    (hp : (activePlans s.plans uid).isEmpty = false)
    (hg : (plansToGenerate s uid today).isEmpty = false)
    (hj : j < (genPairs (plansToGenerate s uid today)).length) :
    (ensure_fresh_actions_for_today uid today cfg out f s).actions =
      s.actions ++ buildFreshRows uid today cfg out f s.actions 0
        (genPairs (plansToGenerate s uid today)) ∧
    (buildFreshRows uid today cfg out f s.actions 0
        (genPairs (plansToGenerate s uid today))).length =
      (genPairs (plansToGenerate s uid today)).length ∧
    ((buildFreshRows uid today cfg out f s.actions 0
        (genPairs (plansToGenerate s uid today))).getD j default).plan_id =
      ((genPairs (plansToGenerate s uid today)).getD j default).1.id ∧
    ((buildFreshRows uid today cfg out f s.actions 0
        (genPairs (plansToGenerate s uid today))).getD j default).focus_area =
      focusNameOf ((genPairs (plansToGenerate s uid today)).getD j default).2 ∧
    ((buildFreshRows uid today cfg out f s.actions 0
        (genPairs (plansToGenerate s uid today))).getD j default).action ≠ "" ∧
    (genFailed cfg (out j) →
      ((buildFreshRows uid today cfg out f s.actions 0
          (genPairs (plansToGenerate s uid today))).getD j default).action =
        fallback_next_action ((genPairs (plansToGenerate s uid today)).getD j default).2
          (dayIndexOf s.actions uid today
            ((genPairs (plansToGenerate s uid today)).getD j default).1.id) ∨
      ((buildFreshRows uid today cfg out f s.actions 0
          (genPairs (plansToGenerate s uid today))).getD j default).action =
        "Take one small step today.") := by
  have hgd := buildFreshRows_getD uid today cfg out f s.actions
    (genPairs (plansToGenerate s uid today)) 0 j hj
  rw [Nat.zero_add] at hgd
  refine ⟨?_, buildFreshRows_length uid today cfg out f s.actions 0 _, ?_, ?_, ?_, ?_⟩
  · simp [ensure_fresh_actions_for_today, hp, hg]
  · rw [hgd]
    simp [freshRow]
  · rw [hgd]
    simp [freshRow]
  · rw [hgd]
    simp only [freshRow]
    exact actionText_generationTask_ne_empty cfg _ _ _ _ _
  · intro hf
    rw [hgd]
    simp only [freshRow]
    exact actionText_generationTask_of_failed cfg _ _ _ _ _ hf

/-- Witness for `fresh_actions_fallback_isolation`: one active plan with one
focus area, no generator configured. -/
theorem fresh_actions_fallback_isolation_witness :
    (ensure_fresh_actions_for_today "u" 3 false (fun _ => TaskOutcome.escape)
        (fun n => toString n) sampleSt).actions =
      sampleSt.actions ++ buildFreshRows "u" 3 false (fun _ => TaskOutcome.escape)
        (fun n => toString n) sampleSt.actions 0
        (genPairs (plansToGenerate sampleSt "u" 3)) ∧
    (buildFreshRows "u" 3 false (fun _ => TaskOutcome.escape) (fun n => toString n)
        sampleSt.actions 0 (genPairs (plansToGenerate sampleSt "u" 3))).length =
      (genPairs (plansToGenerate sampleSt "u" 3)).length ∧
    ((buildFreshRows "u" 3 false (fun _ => TaskOutcome.escape) (fun n => toString n)
        sampleSt.actions 0 (genPairs (plansToGenerate sampleSt "u" 3))).getD 0
        default).plan_id =
      ((genPairs (plansToGenerate sampleSt "u" 3)).getD 0 default).1.id ∧
    ((buildFreshRows "u" 3 false (fun _ => TaskOutcome.escape) (fun n => toString n)
        sampleSt.actions 0 (genPairs (plansToGenerate sampleSt "u" 3))).getD 0
        default).focus_area =
      focusNameOf ((genPairs (plansToGenerate sampleSt "u" 3)).getD 0 default).2 ∧
    ((buildFreshRows "u" 3 false (fun _ => TaskOutcome.escape) (fun n => toString n)
        sampleSt.actions 0 (genPairs (plansToGenerate sampleSt "u" 3))).getD 0
        default).action ≠ "" ∧
    (genFailed false ((fun _ => TaskOutcome.escape) 0) →
      ((buildFreshRows "u" 3 false (fun _ => TaskOutcome.escape) (fun n => toString n)
          sampleSt.actions 0 (genPairs (plansToGenerate sampleSt "u" 3))).getD 0
          default).action =
        fallback_next_action
          ((genPairs (plansToGenerate sampleSt "u" 3)).getD 0 default).2
          (dayIndexOf sampleSt.actions "u" 3
            ((genPairs (plansToGenerate sampleSt "u" 3)).getD 0 default).1.id) ∨
      ((buildFreshRows "u" 3 false (fun _ => TaskOutcome.escape) (fun n => toString n)
          sampleSt.actions 0 (genPairs (plansToGenerate sampleSt "u" 3))).getD 0
          default).action =
        "Take one small step today.") :=
  fresh_actions_fallback_isolation "u" 3 false (fun _ => TaskOutcome.escape)
    (fun n => toString n) sampleSt 0 (by decide) (by decide) (by decide)

/-! ### Streak lemmas -/

theorem mem_insertDesc (x y : Int) (l : List Int) :
    y ∈ insertDesc x l ↔ y = x ∨ y ∈ l := by
  induction l with
  | nil => simp [insertDesc]
  | cons a as ih =>
    by_cases h : x ≥ a
    · simp [insertDesc, h]
    · simp [insertDesc, h, ih]
      tauto

theorem mem_sortDesc (x : Int) (l : List Int) : x ∈ sortDesc l ↔ x ∈ l := by
  induction l with
  | nil => simp [sortDesc]
  | cons a as ih =>
    show x ∈ insertDesc a (sortDesc as) ↔ _
    rw [mem_insertDesc]
    simp [ih]

theorem mem_dedupDays (x : Int) (l : List Int) : x ∈ dedupDays l ↔ x ∈ l := by
  induction l with
  | nil => simp [dedupDays]
  | cons a as ih =>
    show x ∈ (if (dedupDays as).contains a then dedupDays as else a :: dedupDays as) ↔ _
    by_cases h : (dedupDays as).contains a
    · rw [if_pos h, ih]
      constructor
      · exact fun hx => List.mem_cons_of_mem a hx
      · intro hx
        rcases List.mem_cons.mp hx with rfl | hx'
        · exact ih.mp (List.mem_of_elem_eq_true h)
        · exact hx' 
    · rw [if_neg h]
      simp [ih]

theorem streakCount_zero_of_head_ne (today : Int) (l : List Int)
    (h : ∀ d ∈ l, d ≠ today) : streakCount today l 0 = 0 := by
  cases l with
  | nil => rfl
  | cons d ds =>
    have hd := h d (List.mem_cons_self d ds)
    simp [streakCount, hd]

theorem mem_streak_days (uid : String) (today : Int) (store : List DailyAction)
    (d : Int)
    (hd : d ∈ (sortDesc ((store.filter
      (fun a => a.user_id == uid && a.completed == true)).map (fun a => a.day))).take 2000) :
    ∃ a ∈ store, a.user_id = uid ∧ a.completed = true ∧ a.day = d := by
  have h1 := List.mem_of_mem_take hd
  rw [mem_sortDesc] at h1
  obtain ⟨a, ha, hda⟩ := List.mem_map.mp h1
  have h2 := List.mem_filter.mp ha
  have h3 := h2.2
  simp only [Bool.and_eq_true, beq_iff_eq] at h3
  exact ⟨a, h2.1, h3.1, h3.2, hda⟩

/-- **C6.** Streak arithmetic: `longest_streak ≥ current_streak` for every
input history; `current_streak = 0` whenever no completed action of the user
falls on today or yesterday; and with no completed actions at all the result
is the zero state `(0, 0, 0)` with the default message. -/
theorem calculate_streak_spec (uid : String) (today : Int) (store : List DailyAction) :
    (calculate_streak uid today store).current_streak ≤
      (calculate_streak uid today store).longest_streak ∧
    ((∀ a ∈ store, a.user_id = uid → a.completed = true →
        a.day ≠ today ∧ a.day ≠ today - 1) →
      (calculate_streak uid today store).current_streak = 0) ∧
    ((∀ a ∈ store, a.user_id = uid → a.completed = false) →
      calculate_streak uid today store =
        ⟨0, 0, 0, "Start your first action to begin your journey!"⟩) := by
  by_cases hE : ((sortDesc ((store.filter
      (fun a => a.user_id == uid && a.completed == true)).map
        (fun a => a.day))).take 2000).isEmpty
  · have hz : calculate_streak uid today store =
        ⟨0, 0, 0, "Start your first action to begin your journey!"⟩ := by
      simp only [calculate_streak]
      rw [if_pos hE]
    rw [hz]
    exact ⟨Nat.le_refl 0, fun _ => rfl, fun _ => rfl⟩
  · have hrec : calculate_streak uid today store =
        { current_streak := streakCount today (sortDesc (dedupDays
            ((sortDesc ((store.filter (fun a => a.user_id == uid &&
              a.completed == true)).map (fun a => a.day))).take 2000))) 0
          longest_streak := max (longestLoop (sortDesc (dedupDays
            ((sortDesc ((store.filter (fun a => a.user_id == uid &&
              a.completed == true)).map (fun a => a.day))).take 2000))) 1 1)
            (streakCount today (sortDesc (dedupDays
              ((sortDesc ((store.filter (fun a => a.user_id == uid &&
                a.completed == true)).map (fun a => a.day))).take 2000))) 0)
          total_completed := ((sortDesc ((store.filter (fun a =>
            a.user_id == uid && a.completed == true)).map
              (fun a => a.day))).take 2000).length
          message := streakMessage (streakCount today (sortDesc (dedupDays
            ((sortDesc ((store.filter (fun a => a.user_id == uid &&
              a.completed == true)).map (fun a => a.day))).take 2000))) 0) } := by
      simp only [calculate_streak]
      rw [if_neg hE]
    refine ⟨?_, ?_, ?_⟩
    · rw [hrec]
      exact Nat.le_max_right _ _
    · intro h
      rw [hrec]
      show streakCount today _ 0 = 0
      refine streakCount_zero_of_head_ne today _ fun d hd => ?_
      rw [mem_sortDesc, mem_dedupDays] at hd
      obtain ⟨a, ha, hu, hc, hday⟩ := mem_streak_days uid today store d hd
      rw [← hday]
      exact (h a ha hu hc).1
    · intro h
      exfalso
      have hfil : store.filter (fun a => a.user_id == uid && a.completed == true) = [] := by
        refine List.filter_eq_nil_iff.mpr fun a ha => ?_
        simp only [Bool.and_eq_true, beq_iff_eq, not_and]
        intro hu
        rw [h a ha hu]
        simp
      rw [hfil] at hE
      simp [sortDesc] at hE

/-- Witness for `calculate_streak_spec`: a store whose single action is
incomplete, so both hypotheses hold. -/
theorem calculate_streak_spec_witness :
    (calculate_streak "u" 10
        [⟨"x", "u", "p", "f", "a", 5, false, none, none⟩]).current_streak ≤
      (calculate_streak "u" 10
        [⟨"x", "u", "p", "f", "a", 5, false, none, none⟩]).longest_streak ∧
    (calculate_streak "u" 10
        [⟨"x", "u", "p", "f", "a", 5, false, none, none⟩]).current_streak = 0 ∧
    calculate_streak "u" 10 [⟨"x", "u", "p", "f", "a", 5, false, none, none⟩] =
      ⟨0, 0, 0, "Start your first action to begin your journey!"⟩ :=
  ⟨(calculate_streak_spec "u" 10 [⟨"x", "u", "p", "f", "a", 5, false, none, none⟩]).1,
   (calculate_streak_spec "u" 10
     [⟨"x", "u", "p", "f", "a", 5, false, none, none⟩]).2.1 (by decide),
   (calculate_streak_spec "u" 10
     [⟨"x", "u", "p", "f", "a", 5, false, none, none⟩]).2.2 (by decide)⟩

/-! ### Weekly summary -/

/-- **C7.** `generate_weekly_summary` uses the Monday-to-Sunday window
containing `today` (`week_start` is the Monday on or before `today`,
`week_end` six days later) and aggregates exactly the user's actions whose
day lies in that window; when the window holds 10 actions of which 6 are
completed, the completion rate is `60.0` and the momentum message is the
"solid week" tier (the `≥ 60` threshold). -/
theorem weekly_summary_solid_week (uid : String) (today : Int)
    (store : List DailyAction)
    (h10 : (generate_weekly_summary uid today store).total_actions = 10)
    (h6 : (generate_weekly_summary uid today store).completed_actions = 6) :
    (generate_weekly_summary uid today store).week_start = today - pyWeekday today ∧
    (generate_weekly_summary uid today store).week_end =
      today - pyWeekday today + 6 ∧
    pyWeekday ((generate_weekly_summary uid today store).week_start) = 0 ∧
    (generate_weekly_summary uid today store).week_start ≤ today ∧
    today ≤ (generate_weekly_summary uid today store).week_end ∧
    (generate_weekly_summary uid today store).total_actions =
      (store.filter (fun a => a.user_id == uid &&
        decide (today - pyWeekday today ≤ a.day) &&
        decide (a.day ≤ today - pyWeekday today + 6))).length ∧
    (generate_weekly_summary uid today store).completed_actions =
      ((store.filter (fun a => a.user_id == uid &&
        decide (today - pyWeekday today ≤ a.day) &&
        decide (a.day ≤ today - pyWeekday today + 6))).filter
          (fun a => a.completed)).length ∧
    (generate_weekly_summary uid today store).completion_rate = 60 ∧
    (generate_weekly_summary uid today store).momentum_message =
      "Solid week! 6 actions done. Keep stacking wins 🌟" := by
  have hb1 : 0 ≤ (today + 3) % 7 := Int.emod_nonneg _ (by norm_num)
  have hb2 : (today + 3) % 7 < 7 := Int.emod_lt_of_pos _ (by norm_num)
  have htot : (generate_weekly_summary uid today store).total_actions =
      (store.filter (fun a => a.user_id == uid &&
        decide (today - pyWeekday today ≤ a.day) &&
        decide (a.day ≤ today - pyWeekday today + 6))).length := rfl
  have hcomp : (generate_weekly_summary uid today store).completed_actions =
      ((store.filter (fun a => a.user_id == uid &&
        decide (today - pyWeekday today ≤ a.day) &&
        decide (a.day ≤ today - pyWeekday today + 6))).filter
          (fun a => a.completed)).length := rfl
  have hlen : (store.filter (fun a => a.user_id == uid &&
      decide (today - pyWeekday today ≤ a.day) &&
      decide (a.day ≤ today - pyWeekday today + 6))).length = 10 :=
    htot ▸ h10
  have hlen6 : ((store.filter (fun a => a.user_id == uid &&
      decide (today - pyWeekday today ≤ a.day) &&
      decide (a.day ≤ today - pyWeekday today + 6))).filter
        (fun a => a.completed)).length = 6 :=
    hcomp ▸ h6
  have hrate : (generate_weekly_summary uid today store).completion_rate =
      pyRound1 (if (store.filter (fun a => a.user_id == uid &&
          decide (today - pyWeekday today ≤ a.day) &&
          decide (a.day ≤ today - pyWeekday today + 6))).length = 0 then 0
        else (((store.filter (fun a => a.user_id == uid &&
            decide (today - pyWeekday today ≤ a.day) &&
            decide (a.day ≤ today - pyWeekday today + 6))).filter
              (fun a => a.completed)).length : ℚ) /
          ((store.filter (fun a => a.user_id == uid &&
            decide (today - pyWeekday today ≤ a.day) &&
            decide (a.day ≤ today - pyWeekday today + 6))).length : ℚ) * 100) := rfl
  have hmsg : (generate_weekly_summary uid today store).momentum_message =
      (if (if (store.filter (fun a => a.user_id == uid &&
            decide (today - pyWeekday today ≤ a.day) &&
            decide (a.day ≤ today - pyWeekday today + 6))).length = 0 then (0 : ℚ)
          else (((store.filter (fun a => a.user_id == uid &&
              decide (today - pyWeekday today ≤ a.day) &&
              decide (a.day ≤ today - pyWeekday today + 6))).filter
                (fun a => a.completed)).length : ℚ) /
            ((store.filter (fun a => a.user_id == uid &&
              decide (today - pyWeekday today ≤ a.day) &&
              decide (a.day ≤ today - pyWeekday today + 6))).length : ℚ) * 100) ≥ 80
        then "Incredible momentum this week! " ++ toString ((store.filter
          (fun a => a.user_id == uid &&
            decide (today - pyWeekday today ≤ a.day) &&
            decide (a.day ≤ today - pyWeekday today + 6))).filter
              (fun a => a.completed)).length ++ " actions completed — you're moving 🚀"
        else if (if (store.filter (fun a => a.user_id == uid &&
            decide (today - pyWeekday today ≤ a.day) &&
            decide (a.day ≤ today - pyWeekday today + 6))).length = 0 then (0 : ℚ)
          else (((store.filter (fun a => a.user_id == uid &&
              decide (today - pyWeekday today ≤ a.day) &&
              decide (a.day ≤ today - pyWeekday today + 6))).filter
                (fun a => a.completed)).length : ℚ) /
            ((store.filter (fun a => a.user_id == uid &&
              decide (today - pyWeekday today ≤ a.day) &&
              decide (a.day ≤ today - pyWeekday today + 6))).length : ℚ) * 100) ≥ 60
        then "Solid week! " ++ toString ((store.filter
          (fun a => a.user_id == uid &&
            decide (today - pyWeekday today ≤ a.day) &&
            decide (a.day ≤ today - pyWeekday today + 6))).filter
              (fun a => a.completed)).length ++ " actions done. Keep stacking wins 🌟"
        else if (if (store.filter (fun a => a.user_id == uid &&
            decide (today - pyWeekday today ≤ a.day) &&
            decide (a.day ≤ today - pyWeekday today + 6))).length = 0 then (0 : ℚ)
          else (((store.filter (fun a => a.user_id == uid &&
              decide (today - pyWeekday today ≤ a.day) &&
              decide (a.day ≤ today - pyWeekday today + 6))).filter
                (fun a => a.completed)).length : ℚ) /
            ((store.filter (fun a => a.user_id == uid &&
              decide (today - pyWeekday today ≤ a.day) &&
              decide (a.day ≤ today - pyWeekday today + 6))).length : ℚ) * 100) ≥ 40
        then "You showed up " ++ toString ((store.filter
          (fun a => a.user_id == uid &&
            decide (today - pyWeekday today ≤ a.day) &&
            decide (a.day ≤ today - pyWeekday today + 6))).filter
              (fun a => a.completed)).length ++ " times this week. That counts 🌱"
        else if (if (store.filter (fun a => a.user_id == uid &&
            decide (today - pyWeekday today ≤ a.day) &&
            decide (a.day ≤ today - pyWeekday today + 6))).length = 0 then (0 : ℚ)
          else (((store.filter (fun a => a.user_id == uid &&
              decide (today - pyWeekday today ≤ a.day) &&
              decide (a.day ≤ today - pyWeekday today + 6))).filter
                (fun a => a.completed)).length : ℚ) /
            ((store.filter (fun a => a.user_id == uid &&
              decide (today - pyWeekday today ≤ a.day) &&
              decide (a.day ≤ today - pyWeekday today + 6))).length : ℚ) * 100) > 0
        then toString ((store.filter
          (fun a => a.user_id == uid &&
            decide (today - pyWeekday today ≤ a.day) &&
            decide (a.day ≤ today - pyWeekday today + 6))).filter
              (fun a => a.completed)).length ++ " small steps this week. Progress > perfection 💚"
        else "New week, fresh start! Your goals are waiting 🌅") := rfl
  rw [hlen, hlen6] at hrate hmsg
  refine ⟨rfl, rfl, ?_, ?_, ?_, htot, hcomp, ?_, ?_⟩
  · show (today - (today + 3) % 7 + 3) % 7 = 0
    omega
  · show today - pyWeekday today ≤ today
    unfold pyWeekday
    omega
  · show today ≤ today - pyWeekday today + 6
    unfold pyWeekday
    omega
  · rw [hrate]
    norm_num [pyRound1, roundHalfEven]
  · rw [hmsg]
    norm_num
    decide

/-- Witness for `weekly_summary_solid_week`: Monday `today = 4` with ten
actions in the window, six completed. -/
theorem weekly_summary_solid_week_witness :
    (generate_weekly_summary "u" 4
        [⟨"1", "u", "p", "f", "a1", 4, true, none, none⟩,
         ⟨"2", "u", "p", "f", "a2", 4, true, none, none⟩,
         ⟨"3", "u", "p", "f", "a3", 4, true, none, none⟩,
         ⟨"4", "u", "p", "f", "a4", 4, true, none, none⟩,
         ⟨"5", "u", "p", "f", "a5", 4, true, none, none⟩,
         ⟨"6", "u", "p", "f", "a6", 4, true, none, none⟩,
         ⟨"7", "u", "p", "f", "a7", 4, false, none, none⟩,
         ⟨"8", "u", "p", "f", "a8", 4, false, none, none⟩,
         ⟨"9", "u", "p", "f", "a9", 4, false, none, none⟩,
         ⟨"10", "u", "p", "f", "a10", 4, false, none, none⟩]).completion_rate = 60 ∧
    (generate_weekly_summary "u" 4
        [⟨"1", "u", "p", "f", "a1", 4, true, none, none⟩,
         ⟨"2", "u", "p", "f", "a2", 4, true, none, none⟩,
         ⟨"3", "u", "p", "f", "a3", 4, true, none, none⟩,
         ⟨"4", "u", "p", "f", "a4", 4, true, none, none⟩,
         ⟨"5", "u", "p", "f", "a5", 4, true, none, none⟩,
         ⟨"6", "u", "p", "f", "a6", 4, true, none, none⟩,
         ⟨"7", "u", "p", "f", "a7", 4, false, none, none⟩,
         ⟨"8", "u", "p", "f", "a8", 4, false, none, none⟩,
         ⟨"9", "u", "p", "f", "a9", 4, false, none, none⟩,
         ⟨"10", "u", "p", "f", "a10", 4, false, none, none⟩]).momentum_message =
      "Solid week! 6 actions done. Keep stacking wins 🌟" :=
  ⟨(weekly_summary_solid_week "u" 4
      [⟨"1", "u", "p", "f", "a1", 4, true, none, none⟩,
       ⟨"2", "u", "p", "f", "a2", 4, true, none, none⟩,
       ⟨"3", "u", "p", "f", "a3", 4, true, none, none⟩,
       ⟨"4", "u", "p", "f", "a4", 4, true, none, none⟩,
       ⟨"5", "u", "p", "f", "a5", 4, true, none, none⟩,
       ⟨"6", "u", "p", "f", "a6", 4, true, none, none⟩,
       ⟨"7", "u", "p", "f", "a7", 4, false, none, none⟩,
       ⟨"8", "u", "p", "f", "a8", 4, false, none, none⟩,
       ⟨"9", "u", "p", "f", "a9", 4, false, none, none⟩,
       ⟨"10", "u", "p", "f", "a10", 4, false, none, none⟩]
      (by decide) (by decide)).2.2.2.2.2.2.2.1,
   (weekly_summary_solid_week "u" 4
      [⟨"1", "u", "p", "f", "a1", 4, true, none, none⟩,
       ⟨"2", "u", "p", "f", "a2", 4, true, none, none⟩,
       ⟨"3", "u", "p", "f", "a3", 4, true, none, none⟩,
       ⟨"4", "u", "p", "f", "a4", 4, true, none, none⟩,
       ⟨"5", "u", "p", "f", "a5", 4, true, none, none⟩,
       ⟨"6", "u", "p", "f", "a6", 4, true, none, none⟩,
       ⟨"7", "u", "p", "f", "a7", 4, false, none, none⟩,
       ⟨"8", "u", "p", "f", "a8", 4, false, none, none⟩,
       ⟨"9", "u", "p", "f", "a9", 4, false, none, none⟩,
       ⟨"10", "u", "p", "f", "a10", 4, false, none, none⟩]
      (by decide) (by decide)).2.2.2.2.2.2.2.2⟩

/-! ### Day resolver and check-in -/

/-- **C8.** Day-rollover boundary: with rollover hour 5 a local time of
04:59 resolves to the previous calendar date and 05:00 to the current one;
in general `effective_day` subtracts exactly one day iff the local hour is
strictly before the configured rollover hour, and otherwise returns the
local date unchanged. -/
theorem effective_day_boundary (d : Int) :
    effective_day 5 ⟨d, 4, 59⟩ = d - 1 ∧
    effective_day 5 ⟨d, 5, 0⟩ = d ∧
    (∀ (rh : Nat) (t : LocalTime), effective_day rh t = t.day - 1 ↔ t.hour < rh) ∧
    (∀ (rh : Nat) (t : LocalTime), effective_day rh t = t.day ↔ rh ≤ t.hour) := by
  refine ⟨by simp [effective_day], by simp [effective_day], ?_, ?_⟩
  · intro rh t
    unfold effective_day
    by_cases h : t.hour < rh
    · simp [h]
    · simp only [if_neg h]
      constructor
      · intro he
        exfalso
        omega
      · intro hh
        exact absurd hh h
  · intro rh t
    unfold effective_day
    by_cases h : t.hour < rh
    · simp only [if_pos h]
      constructor
      · intro he
        exfalso
        omega
      · intro hh
        omega
    · simp only [if_neg h]
      constructor
      · intro _
        omega
      · intro _
        trivial

/-- **C10.** The check-in update touches exactly the rows matching
`(id = action_id, user_id = caller)`: the store keeps its length, every
non-matching row is unchanged, and a matching row gets `completed` set to
the request value with `completed_at` set to the current time when
completing and reset to `null` when un-completing, all other fields
untouched. -/
theorem check_in_spec (uid aid : String) (c : Bool) (now : Int)
    (store : List DailyAction) (i : Nat) (hi : i < store.length) :
    (check_in uid aid c now store).length = store.length ∧
    (¬(store[i].id = aid ∧ store[i].user_id = uid) →
      (check_in uid aid c now store).getD i default = store[i]) ∧
    ((store[i].id = aid ∧ store[i].user_id = uid) →
      (check_in uid aid c now store).getD i default = checkInUpdate c now store[i]) ∧
    (∀ a : DailyAction,
      (checkInUpdate c now a).completed = c ∧
      (checkInUpdate c now a).completed_at = (if c then some now else none) ∧
      (checkInUpdate c now a).id = a.id ∧
      (checkInUpdate c now a).user_id = a.user_id ∧
      (checkInUpdate c now a).plan_id = a.plan_id ∧
      (checkInUpdate c now a).focus_area = a.focus_area ∧
      (checkInUpdate c now a).action = a.action ∧
      (checkInUpdate c now a).day = a.day ∧
      (checkInUpdate c now a).rescheduled_from = a.rescheduled_from) := by
  have hlen : (check_in uid aid c now store).length = store.length := by
    simp [check_in]
  have hget : (check_in uid aid c now store).getD i default =
      (if store[i].id == aid && store[i].user_id == uid
        then checkInUpdate c now store[i] else store[i]) := by
    rw [List.getD_eq_getElem _ _ (by rw [hlen]; exact hi)]
    simp [check_in]
  refine ⟨hlen, ?_, ?_, fun a => by simp [checkInUpdate]⟩
  · intro hno
    rw [hget, if_neg ?_]
    intro hb
    simp only [Bool.and_eq_true, beq_iff_eq] at hb
    exact hno hb
  · intro hyes
    rw [hget, if_pos ?_]
    simp only [Bool.and_eq_true, beq_iff_eq]
    exact hyes

/-- Witness for `check_in_spec`: un-completing a completed row resets its
`completed_at` to `null`. -/
theorem check_in_spec_witness :
    (check_in "u" "a1" false 9
        [⟨"a1", "u", "p", "f", "x", 5, true, some 7, none⟩]).getD 0 default =
      checkInUpdate false 9 (⟨"a1", "u", "p", "f", "x", 5, true, some 7, none⟩ :
        DailyAction) :=
  (check_in_spec "u" "a1" false 9
    [⟨"a1", "u", "p", "f", "x", 5, true, some 7, none⟩] 0 (by decide)).2.2.1 (by decide)

end DreamLine
